import Mathlib

/-!
Shallow embedding of `src/AdamT.py` (the `AdamT` optimizer: Adam with a
cosine-annealed "temperature" modulating the learning rate and the momentum
coefficient), together with theorems settling the specification claims.

Modelling conventions:
* Python floats are modelled by real numbers `ℝ`; tensors by `List ℝ`
  (the flattened elementwise view); elementwise in-place tensor operations
  become `List.zipWith` / `List.map`.
* A parameter's `.grad` attribute is `Option Grad` (`None` / dense / sparse).
* The per-parameter state dictionary `self.state[p]`, keyed by parameter
  identity, is modelled positionally: each group holds a list of entries,
  one per parameter, carrying the parameter and its optional `ParamState`.
* `raise` is modelled by `Except`: the constructor's `ValueError`s become
  `ConfigurationError` values, and the sparse-gradient `RuntimeError` in
  `step` becomes `StepError.sparseGrad`.  Because the Python code mutates
  state before a later `raise`, `collect` returns the partially mutated
  entry list alongside the `Except` outcome.
* The optional `closure` argument is a pass-through to an external callback
  (spec §6) and plays no role in any claim; it is not modelled.
-/

namespace AdamT

/-- Tensors are flattened lists of real scalars. -/
abbrev Tensor := List ℝ

/-- A gradient is either dense (carrying its values) or sparse
(`p.grad.is_sparse` in the source). -/
inductive Grad where
  | dense (g : Tensor)
  | sparse


/-- A parameter: its current value tensor and its `.grad` attribute. -/
structure Param where
  value : Tensor
  grad : Option Grad


/-- Per-parameter optimizer state (`self.state[p]` in the source):
`step`, `exp_avg` (first moment), `exp_avg_sq` (second moment). -/
structure ParamState where
  step : ℕ
  exp_avg : Tensor
  exp_avg_sq : Tensor


/-- Hyperparameters of one group (the `defaults` dict in `__init__`). -/
structure Config where
  lr : ℝ
  beta1 : ℝ
  beta2 : ℝ
  eps : ℝ
  weight_decay : ℝ
  T_max : ℤ
  eta_min : ℝ
  temperature_init : ℝ

/-- One slot of the state table: a parameter together with its lazily
created `ParamState` (absent until first update with a gradient). -/
structure Entry where
  param : Param
  state : Option ParamState

/-- One parameter group: hyperparameters, the group step counter
(`group['step']`), and the parameters with their states. -/
structure Group where
  cfg : Config
  step : ℕ
  entries : List Entry

/-- Which hyperparameter a `ConfigurationError` blames. -/
inductive ConfigField where
  | lr
  | eps
  | beta1
  | beta2
  | weight_decay
  | temperature_init
  | eta_min
  | T_max


/-- The constructor's `ValueError`: it names the offending field and
carries the offending value (as it appears in the message). -/
structure ConfigurationError where
  field : ConfigField
  value : ℝ

/-- The one runtime error raised by `step`:
`RuntimeError('AdamT does not support sparse gradients')`. -/
inductive StepError where
  | sparseGrad


/-- The documented bound each hyperparameter must satisfy (the eight
checks at the top of `__init__`, lines 23-38 of the source). -/
def fieldBound (c : Config) : ConfigField → Prop
  | ConfigField.lr => 0 ≤ c.lr
  | ConfigField.eps => 0 ≤ c.eps
  | ConfigField.beta1 => 0 ≤ c.beta1 ∧ c.beta1 < 1
  | ConfigField.beta2 => 0 ≤ c.beta2 ∧ c.beta2 < 1
  | ConfigField.weight_decay => 0 ≤ c.weight_decay
  | ConfigField.temperature_init => 0 ≤ c.temperature_init
  | ConfigField.eta_min => 0 ≤ c.eta_min ∧ c.eta_min ≤ c.temperature_init
  | ConfigField.T_max => 1 ≤ c.T_max

/-- The value of the named hyperparameter in a config (what the error
message interpolates). -/
def fieldVal (c : Config) : ConfigField → ℝ
  | ConfigField.lr => c.lr
  | ConfigField.eps => c.eps
  | ConfigField.beta1 => c.beta1
  | ConfigField.beta2 => c.beta2
  | ConfigField.weight_decay => c.weight_decay
  | ConfigField.temperature_init => c.temperature_init
  | ConfigField.eta_min => c.eta_min
  | ConfigField.T_max => (c.T_max : ℝ)

/-- The validation in `__init__`, in source order: the first violated
bound raises; otherwise validation succeeds. -/
noncomputable def validateConfig (c : Config) : Except ConfigurationError Unit :=
  if 0 ≤ c.lr then
    if 0 ≤ c.eps then
      if 0 ≤ c.beta1 ∧ c.beta1 < 1 then
        if 0 ≤ c.beta2 ∧ c.beta2 < 1 then
          if 0 ≤ c.weight_decay then
            if 0 ≤ c.temperature_init then
              if 0 ≤ c.eta_min ∧ c.eta_min ≤ c.temperature_init then
                if 1 ≤ c.T_max then Except.ok ()
                else Except.error ⟨ConfigField.T_max, (c.T_max : ℝ)⟩
              else Except.error ⟨ConfigField.eta_min, c.eta_min⟩
            else Except.error ⟨ConfigField.temperature_init, c.temperature_init⟩
          else Except.error ⟨ConfigField.weight_decay, c.weight_decay⟩
        else Except.error ⟨ConfigField.beta2, c.beta2⟩
      else Except.error ⟨ConfigField.beta1, c.beta1⟩
    else Except.error ⟨ConfigField.eps, c.eps⟩
  else Except.error ⟨ConfigField.lr, c.lr⟩

/-- The constructor: validate, then build the groups with step counters
initialized to 0 (`group.setdefault('step', 0)`) and no per-parameter
state yet (the state dict starts empty). -/
noncomputable def init (pss : List (List Param)) (c : Config) :
    Except ConfigurationError (List Group) :=
  match validateConfig c with
  | Except.error e => Except.error e
  | Except.ok _ =>
    Except.ok (pss.map (fun ps => ⟨c, 0, ps.map (fun p => ⟨p, none⟩)⟩))

/-- Cosine-annealed temperature (source lines 77-78), as a function of the
(already incremented) step:
`eta_min + (temperature_init - eta_min) * (1 + cos(pi * step / T_max)) / 2`. -/
noncomputable def temperatureAt (c : Config) (s : ℕ) : ℝ :=
  c.eta_min + (c.temperature_init - c.eta_min) *
    (1 + Real.cos (Real.pi * (s : ℝ) / (c.T_max : ℝ))) / 2

/-- Temperature-adjusted momentum coefficient (source line 85):
`beta1_t = beta1 + (1 - beta1) * (1 - temperature)`. -/
def beta1T (c : Config) (t : ℝ) : ℝ :=
  c.beta1 + (1 - c.beta1) * (1 - t)

/-- Fresh state for a parameter seen for the first time (source lines
97-102): step 0 and zero moment tensors shaped like the parameter. -/
def initState (p : Param) : ParamState :=
  ⟨0, p.value.map (fun _ => 0), p.value.map (fun _ => 0)⟩

/-- Effect of the collection loop (source lines 95-109) on one entry with
a dense gradient: lazily create zero state if absent, then record the
current group step in `state['step']`. -/
def collectEntry (s : ℕ) (e : Entry) : Entry :=
  match e.param.grad with
  | some (Grad.dense _) =>
    let st := e.state.getD (initState e.param)
    ⟨e.param, some ⟨s, st.exp_avg, st.exp_avg_sq⟩⟩
  | _ => e

/-- The collection loop over a group's parameters (source lines 87-109):
parameters without a gradient are skipped; a sparse gradient raises at
once, keeping the mutations already made to earlier entries; a dense
gradient lazily initializes state and records the step. -/
def collect (s : ℕ) : List Entry → List Entry × Except StepError Unit
  | [] => ([], Except.ok ())
  | e :: es =>
    match e.param.grad with
    | none =>
      let r := collect s es
      (e :: r.1, r.2)
    | some Grad.sparse => (e :: es, Except.error StepError.sparseGrad)
    | some (Grad.dense _) =>
      let r := collect s es
      (collectEntry s e :: r.1, r.2)

/-- The core update (source lines 112-137) for one collected parameter:
optional decoupled weight decay on a gradient copy, moment updates,
bias corrections using the recorded state step, and the in-place
parameter update `param.addcdiv_(exp_avg, denom, value=-lr_t_adj)`. -/
noncomputable def updateParam (c : Config) (lrt b1t : ℝ) (v G : Tensor)
    (st : ParamState) : Tensor × ParamState :=
  let grad := if c.weight_decay ≠ 0
    then List.zipWith (fun gi pi => gi + c.weight_decay * pi) G v
    else G
  let m1 := List.zipWith (fun m gi => b1t * m + (1 - b1t) * gi) st.exp_avg grad
  let m2 := List.zipWith (fun q gi => c.beta2 * q + (1 - c.beta2) * gi * gi)
    st.exp_avg_sq grad
  let bc1 := 1 - b1t ^ st.step
  let bc2 := 1 - c.beta2 ^ st.step
  let lrtadj := lrt / bc1
  let denom := m2.map (fun q => Real.sqrt q / Real.sqrt bc2 + c.eps)
  let v' := List.zipWith (fun pv q => pv + (-lrtadj) * q) v
    (List.zipWith (fun m d => m / d) m1 denom)
  (v', ⟨st.step, m1, m2⟩)

/-- The update loop applied to one entry: entries collected with a dense
gradient (which by then have a state) are updated; others are untouched. -/
noncomputable def updateEntry (c : Config) (lrt b1t : ℝ) (e : Entry) : Entry :=
  match e.param.grad, e.state with
  | some (Grad.dense G), some st =>
    let r := updateParam c lrt b1t e.param.value G st
    ⟨⟨r.1, some (Grad.dense G)⟩, some r.2⟩
  | _, _ => e

/-- The update loop over the collected parameters (source lines 112-137). -/
noncomputable def updatePhase (c : Config) (lrt b1t : ℝ) (es : List Entry) :
    List Entry :=
  es.map (updateEntry c lrt b1t)

/-- One `step()` pass over a single group, parametrized by the temperature
value the pass uses: increment the group step, derive `lr_t` (line 81) and
`beta1_t` (line 85) from the temperature, run the collection loop, and -
if no sparse gradient was hit - the update loop. -/
noncomputable def stepGroupAtTemp (t : ℝ) (g : Group) :
    Group × Except StepError Unit :=
  let n := g.step + 1
  let r := collect n g.entries
  match r.2 with
  | Except.error e => (⟨g.cfg, n, r.1⟩, Except.error e)
  | Except.ok _ =>
    (⟨g.cfg, n, updatePhase g.cfg (g.cfg.lr * t) (beta1T g.cfg t) r.1⟩,
      Except.ok ())

/-- One `step()` pass over a single group (source lines 64-137): the
temperature is the cosine-annealed value at the just-incremented step. -/
noncomputable def stepGroup (g : Group) : Group × Except StepError Unit :=
  stepGroupAtTemp (temperatureAt g.cfg (g.step + 1)) g

/-- The successful-pass result for one group (what `stepGroup` returns
when the group has no sparse gradient). -/
noncomputable def stepGroupOk (g : Group) : Group :=
  let n := g.step + 1
  let t := temperatureAt g.cfg n
  ⟨g.cfg, n, updatePhase g.cfg (g.cfg.lr * t) (beta1T g.cfg t)
    (g.entries.map (collectEntry n))⟩

/-- `step()` over all groups: a raise in one group propagates out,
leaving later groups untouched. -/
noncomputable def step : List Group → List Group × Except StepError Unit
  | [] => ([], Except.ok ())
  | g :: gs =>
    match stepGroup g with
    | (g', Except.error e) => (g' :: gs, Except.error e)
    | (g', Except.ok _) =>
      let r := step gs
      (g' :: r.1, r.2)

/-- A config satisfying every documented bound ("validly constructed"). -/
def ValidConfig (c : Config) : Prop :=
  ∀ f, fieldBound c f

/-- An entry whose gradient is not sparse (absent or dense). -/
def NotSparse (e : Entry) : Prop :=
  e.param.grad ≠ some Grad.sparse

/-- A configuration every claim can instantiate: the source's default
hyperparameters (`lr=1e-3, betas=(0.9,0.999), eps=1e-8, weight_decay=0,
T_max=1000, eta_min=0.1, temperature_init=1.0`). -/
noncomputable def cfgDefault : Config :=
  ⟨1 / 1000, 9 / 10, 999 / 1000, 1 / 100000000, 0, 1000, 1 / 10, 1⟩

lemma cfgDefault_valid : ValidConfig cfgDefault := by
  intro f
  cases f <;> simp only [fieldBound, cfgDefault] <;> norm_num

lemma validate_ok_iff (c : Config) :
    validateConfig c = Except.ok () ↔ ValidConfig c := by
  constructor
  · intro h
    unfold validateConfig at h
    split_ifs at h
    intro f
    cases f <;> assumption
  · intro hv
    have b1 : 0 ≤ c.lr := hv ConfigField.lr
    have b2 : 0 ≤ c.eps := hv ConfigField.eps
    have b3 : 0 ≤ c.beta1 ∧ c.beta1 < 1 := hv ConfigField.beta1
    have b4 : 0 ≤ c.beta2 ∧ c.beta2 < 1 := hv ConfigField.beta2
    have b5 : 0 ≤ c.weight_decay := hv ConfigField.weight_decay
    have b6 : 0 ≤ c.temperature_init := hv ConfigField.temperature_init
    have b7 : 0 ≤ c.eta_min ∧ c.eta_min ≤ c.temperature_init :=
      hv ConfigField.eta_min
    have b8 : 1 ≤ c.T_max := hv ConfigField.T_max
    unfold validateConfig
    rw [if_pos b1, if_pos b2, if_pos b3, if_pos b4, if_pos b5, if_pos b6,
      if_pos b7, if_pos b8]

lemma validate_error (c : Config) (e : ConfigurationError)
    (h : validateConfig c = Except.error e) :
    ¬ fieldBound c e.field ∧ e.value = fieldVal c e.field := by
  unfold validateConfig at h
  split_ifs at h <;>
    first
    | exact Except.noConfusion h
    | (injection h with h'; subst h'; exact ⟨by assumption, rfl⟩)

lemma init_eq_ok (c : Config) (pss : List (List Param))
    (h : validateConfig c = Except.ok ()) :
    init pss c =
      Except.ok (pss.map (fun ps => ⟨c, 0, ps.map (fun p => ⟨p, none⟩)⟩)) := by
  unfold init
  rw [h]

lemma init_eq_error (c : Config) (pss : List (List Param))
    (e : ConfigurationError) (h : validateConfig c = Except.error e) :
    init pss c = Except.error e := by
  unfold init
  rw [h]

lemma temperatureAt_zero (c : Config) :
    temperatureAt c 0 = c.temperature_init := by
  unfold temperatureAt
  simp only [Nat.cast_zero, mul_zero, zero_div, Real.cos_zero]
  ring

lemma temperatureAt_eq_eta_min (c : Config) (hT : c.T_max ≠ 0) (s : ℕ)
    (hs : (s : ℤ) = c.T_max) :
    temperatureAt c s = c.eta_min := by
  unfold temperatureAt
  have hsr : (s : ℝ) = (c.T_max : ℝ) := by exact_mod_cast hs
  have hTr : (c.T_max : ℝ) ≠ 0 := Int.cast_ne_zero.mpr hT
  have harg : Real.pi * (s : ℝ) / (c.T_max : ℝ) = Real.pi := by
    rw [hsr, mul_div_assoc, div_self hTr, mul_one]
  rw [harg, Real.cos_pi]
  ring

lemma temperatureAt_mem (c : Config) (h : c.eta_min ≤ c.temperature_init)
    (s : ℕ) :
    c.eta_min ≤ temperatureAt c s ∧ temperatureAt c s ≤ c.temperature_init := by
  unfold temperatureAt
  have h1 := Real.neg_one_le_cos (Real.pi * (s : ℝ) / (c.T_max : ℝ))
  have h2 := Real.cos_le_one (Real.pi * (s : ℝ) / (c.T_max : ℝ))
  constructor <;> nlinarith

/-- Claim C2: every update call uses the cosine-annealed temperature
evaluated at the just-incremented group step; that temperature function
equals `temperature_init` at step 0, equals `eta_min` at step `T_max`,
and stays within `[eta_min, temperature_init]` for steps in
`[0, T_max]`. -/
theorem claim_C2 (c : Config) (hv : ValidConfig c) (g : Group)
    (hg : g.cfg = c) (s : ℕ) :
    stepGroup g = stepGroupAtTemp (temperatureAt c (g.step + 1)) g ∧
    temperatureAt c 0 = c.temperature_init ∧
    ((s : ℤ) = c.T_max → temperatureAt c s = c.eta_min) ∧
    ((s : ℤ) ≤ c.T_max →
      c.eta_min ≤ temperatureAt c s ∧ temperatureAt c s ≤ c.temperature_init) := by
  have hT : c.T_max ≠ 0 := by
    have := hv ConfigField.T_max
    simp only [fieldBound] at this
    omega
  refine ⟨by rw [← hg]; rfl, temperatureAt_zero c,
    fun hs => temperatureAt_eq_eta_min c hT s hs,
    fun _ => temperatureAt_mem c ?_ s⟩
  exact (hv ConfigField.eta_min).2

/-- Witness for C2 at the default configuration and an empty group. -/
theorem claim_C2_witness :
    ValidConfig cfgDefault ∧
    (stepGroup ⟨cfgDefault, 0, []⟩ =
        stepGroupAtTemp (temperatureAt cfgDefault 1) ⟨cfgDefault, 0, []⟩ ∧
      temperatureAt cfgDefault 0 = cfgDefault.temperature_init ∧
      (((1000 : ℕ) : ℤ) = cfgDefault.T_max →
        temperatureAt cfgDefault 1000 = cfgDefault.eta_min) ∧
      (((1000 : ℕ) : ℤ) ≤ cfgDefault.T_max →
        cfgDefault.eta_min ≤ temperatureAt cfgDefault 1000 ∧
          temperatureAt cfgDefault 1000 ≤ cfgDefault.temperature_init)) :=
  ⟨cfgDefault_valid, claim_C2 cfgDefault cfgDefault_valid ⟨cfgDefault, 0, []⟩ rfl 1000⟩

/-- Claim C3: construction fails with a `ConfigurationError` exactly when
some hyperparameter violates its documented bound, the error names the
offending field and carries its value, and on success every group's step
counter starts at 0. -/
theorem claim_C3 (c : Config) (pss : List (List Param)) (gs : List Group)
    (e : ConfigurationError) :
    ((∃ gs', init pss c = Except.ok gs') ↔ ValidConfig c) ∧
    (init pss c = Except.ok gs → ∀ g ∈ gs, g.step = 0) ∧
    (init pss c = Except.error e →
      ¬ fieldBound c e.field ∧ e.value = fieldVal c e.field) := by
  refine ⟨⟨?_, ?_⟩, ?_, ?_⟩
  · rintro ⟨gs', h⟩
    cases hval : validateConfig c with
    | error e' =>
      rw [init_eq_error c pss e' hval] at h
      exact Except.noConfusion h
    | ok u =>
      cases u
      exact (validate_ok_iff c).mp hval
  · intro hv
    exact ⟨_, init_eq_ok c pss ((validate_ok_iff c).mpr hv)⟩
  · intro h g hg
    cases hval : validateConfig c with
    | error e' =>
      rw [init_eq_error c pss e' hval] at h
      exact Except.noConfusion h
    | ok u =>
      cases u
      rw [init_eq_ok c pss hval] at h
      injection h with h'
      subst h'
      obtain ⟨ps, _, rfl⟩ := List.mem_map.mp hg
      rfl
  · intro h
    cases hval : validateConfig c with
    | ok u =>
      cases u
      rw [init_eq_ok c pss hval] at h
      exact Except.noConfusion h
    | error e' =>
      rw [init_eq_error c pss e' hval] at h
      injection h with h'
      subst h'
      exact validate_error c e' hval

/-- Witness for C3: a config with `beta1 = 2` is rejected blaming `beta1`,
and the default config is accepted with group steps 0. -/
theorem claim_C3_witness :
    ((∃ gs', init [[]] ⟨1 / 1000, 2, 999 / 1000, 1 / 100000000, 0, 1000, 1 / 10, 1⟩ =
        Except.ok gs') ↔
      ValidConfig ⟨1 / 1000, 2, 999 / 1000, 1 / 100000000, 0, 1000, 1 / 10, 1⟩) ∧
    (init [[]] ⟨1 / 1000, 2, 999 / 1000, 1 / 100000000, 0, 1000, 1 / 10, 1⟩ =
        Except.ok [] → ∀ g ∈ ([] : List Group), g.step = 0) ∧
    (init [[]] ⟨1 / 1000, 2, 999 / 1000, 1 / 100000000, 0, 1000, 1 / 10, 1⟩ =
        Except.error ⟨ConfigField.beta1, 2⟩ →
      ¬ fieldBound ⟨1 / 1000, 2, 999 / 1000, 1 / 100000000, 0, 1000, 1 / 10, 1⟩
          ConfigField.beta1 ∧
        (2 : ℝ) = fieldVal ⟨1 / 1000, 2, 999 / 1000, 1 / 100000000, 0, 1000, 1 / 10, 1⟩
          ConfigField.beta1) :=
  claim_C3 ⟨1 / 1000, 2, 999 / 1000, 1 / 100000000, 0, 1000, 1 / 10, 1⟩ [[]] []
    ⟨ConfigField.beta1, 2⟩

/-- The whole effect of a successful pass on one entry: collection
(lazy init + step recording) followed by the core update. -/
noncomputable def stepEntry (c : Config) (n : ℕ) (e : Entry) : Entry :=
  updateEntry c (c.lr * temperatureAt c n) (beta1T c (temperatureAt c n))
    (collectEntry n e)

lemma collect_no_sparse (s : ℕ) (es : List Entry)
    (h : ∀ e ∈ es, NotSparse e) :
    collect s es = (es.map (collectEntry s), Except.ok ()) := by
  induction es with
  | nil => rfl
  | cons e es ih =>
    have he : NotSparse e := h e (List.mem_cons_self e es)
    have ih' := ih (fun x hx => h x (List.mem_cons_of_mem e hx))
    cases hg : e.param.grad with
    | none => simp [collect, hg, ih', collectEntry]
    | some gr =>
      cases gr with
      | dense G => simp [collect, hg, ih']
      | sparse => exact absurd hg he

lemma stepGroup_no_sparse (g : Group) (h : ∀ e ∈ g.entries, NotSparse e) :
    stepGroup g = (stepGroupOk g, Except.ok ()) := by
  simp only [stepGroup, stepGroupAtTemp, stepGroupOk,
    collect_no_sparse (g.step + 1) g.entries h]

lemma step_no_sparse (gs : List Group)
    (h : ∀ g ∈ gs, ∀ e ∈ g.entries, NotSparse e) :
    step gs = (gs.map stepGroupOk, Except.ok ()) := by
  induction gs with
  | nil => rfl
  | cons g gs ih =>
    have hg := h g (List.mem_cons_self g gs)
    have ih' := ih (fun x hx => h x (List.mem_cons_of_mem g hx))
    simp [step, stepGroup_no_sparse g hg, ih']

lemma stepGroupOk_parts (g : Group) :
    (stepGroupOk g).cfg = g.cfg ∧ (stepGroupOk g).step = g.step + 1 ∧
    (stepGroupOk g).entries = g.entries.map (stepEntry g.cfg (g.step + 1)) := by
  refine ⟨rfl, rfl, ?_⟩
  simp [stepGroupOk, updatePhase, stepEntry, List.map_map, Function.comp]

lemma stepEntry_no_grad (c : Config) (n : ℕ) (e : Entry)
    (h : e.param.grad = none) : stepEntry c n e = e := by
  simp [stepEntry, collectEntry, updateEntry, h]

/-- Claim C7: when no gradient is sparse, the update call succeeds, every
group's step counter advances by exactly 1, and every parameter without a
gradient keeps its entry (value, gradient and state) unchanged. -/
theorem claim_C7 (gs : List Group)
    (hns : ∀ g ∈ gs, ∀ e ∈ g.entries, NotSparse e)
    (j i : ℕ) (g : Group) (e : Entry)
    (hg : gs[j]? = some g) (he : g.entries[i]? = some e) :
    (step gs).2 = Except.ok () ∧
    ∃ g', (step gs).1[j]? = some g' ∧ g'.step = g.step + 1 ∧
      (e.param.grad = none → g'.entries[i]? = some e) := by
  rw [step_no_sparse gs hns]
  refine ⟨rfl, stepGroupOk g, ?_, (stepGroupOk_parts g).2.1, fun hnone => ?_⟩
  · simp [hg]
  · rw [(stepGroupOk_parts g).2.2]
    simp [he, stepEntry_no_grad g.cfg (g.step + 1) e hnone]

/-- Witness for C7: one group, one gradient-free parameter. -/
theorem claim_C7_witness :
    (step [⟨cfgDefault, 0, [⟨⟨[1], none⟩, none⟩]⟩]).2 = Except.ok () ∧
    ∃ g', (step [⟨cfgDefault, 0, [⟨⟨[1], none⟩, none⟩]⟩]).1[0]? = some g' ∧
      g'.step = 0 + 1 ∧
      ((⟨⟨[1], none⟩, none⟩ : Entry).param.grad = none →
        g'.entries[0]? = some ⟨⟨[1], none⟩, none⟩) :=
  claim_C7 [⟨cfgDefault, 0, [⟨⟨[1], none⟩, none⟩]⟩]
    (by
      intro g hg e he
      simp at hg
      subst hg
      simp at he
      subst he
      simp [NotSparse])
    0 0 ⟨cfgDefault, 0, [⟨⟨[1], none⟩, none⟩]⟩ ⟨⟨[1], none⟩, none⟩ rfl rfl

/-- Claim C10: the update operation is a deterministic function of the
optimizer state - identical states and inputs give identical results. -/
theorem claim_C10 (gs1 gs2 : List Group) (h : gs1 = gs2) :
    step gs1 = step gs2 := by
  rw [h]

/-- Witness for C10 at a concrete state. -/
theorem claim_C10_witness :
    step [⟨cfgDefault, 0, [⟨⟨[1], some (Grad.dense [1])⟩, none⟩]⟩] =
      step [⟨cfgDefault, 0, [⟨⟨[1], some (Grad.dense [1])⟩, none⟩]⟩] :=
  claim_C10 [⟨cfgDefault, 0, [⟨⟨[1], some (Grad.dense [1])⟩, none⟩]⟩]
    [⟨cfgDefault, 0, [⟨⟨[1], some (Grad.dense [1])⟩, none⟩]⟩] rfl

lemma collect_sparse_get (s : ℕ) (es : List Entry) (i : ℕ) (e : Entry)
    (he : es[i]? = some e) (hs : e.param.grad = some Grad.sparse) :
    (collect s es).1[i]? = some e ∧
    (collect s es).2 = Except.error StepError.sparseGrad := by
  induction es generalizing i with
  | nil => simp at he
  | cons a as ih =>
    cases i with
    | zero =>
      simp at he
      obtain rfl := he
      simp [collect, hs]
    | succ i =>
      simp at he
      cases hg : a.param.grad with
      | none =>
        have hr := ih i he
        simp [collect, hg, hr.1, hr.2]
      | some gr =>
        cases gr with
        | sparse => simp [collect, hg, he]
        | dense G =>
          have hr := ih i he
          simp [collect, hg, hr.1, hr.2]

lemma stepGroup_sparse_get (g : Group) (i : ℕ) (e : Entry)
    (he : g.entries[i]? = some e) (hs : e.param.grad = some Grad.sparse) :
    ∃ g', stepGroup g = (g', Except.error StepError.sparseGrad) ∧
      g'.entries[i]? = some e ∧ g'.step = g.step + 1 ∧ g'.cfg = g.cfg := by
  obtain ⟨h1, h2⟩ := collect_sparse_get (g.step + 1) g.entries i e he hs
  refine ⟨⟨g.cfg, g.step + 1, (collect (g.step + 1) g.entries).1⟩, ?_, h1, rfl, rfl⟩
  simp only [stepGroup, stepGroupAtTemp, h2]

/-- Claim C6: if some parameter's gradient is sparse, the update call
fails with the sparse-gradient error and that parameter's entry - its
value, its gradient and its ParamState (moments and step) - is exactly as
it was before the call. -/
theorem claim_C6 (gs : List Group) (j i : ℕ) (g : Group) (e : Entry)
    (hg : gs[j]? = some g) (he : g.entries[i]? = some e)
    (hs : e.param.grad = some Grad.sparse) :
    (step gs).2 = Except.error StepError.sparseGrad ∧
    ∃ g', (step gs).1[j]? = some g' ∧ g'.entries[i]? = some e := by
  induction gs generalizing j with
  | nil => simp at hg
  | cons a as ih =>
    cases j with
    | zero =>
      simp at hg
      obtain rfl := hg
      obtain ⟨g', hsg, hget, -, -⟩ := stepGroup_sparse_get _ i e he hs
      refine ⟨?_, g', ?_, hget⟩ <;> simp [step, hsg]
    | succ j =>
      simp at hg
      cases hsg : stepGroup a with
      | mk a' r =>
        cases r with
        | error err =>
          cases err
          refine ⟨?_, g, ?_, he⟩ <;> simp [step, hsg, hg]
        | ok u =>
          cases u
          obtain ⟨ih1, g', ih2, ih3⟩ := ih j hg
          refine ⟨?_, g', ?_, ih3⟩ <;> simp [step, hsg, ih1, ih2]

/-- Witness for C6: one group whose single parameter has a sparse
gradient. -/
theorem claim_C6_witness :
    (step [⟨cfgDefault, 0, [⟨⟨[1], some Grad.sparse⟩, none⟩]⟩]).2 =
      Except.error StepError.sparseGrad ∧
    ∃ g', (step [⟨cfgDefault, 0, [⟨⟨[1], some Grad.sparse⟩, none⟩]⟩]).1[0]? =
        some g' ∧
      g'.entries[0]? = some ⟨⟨[1], some Grad.sparse⟩, none⟩ :=
  claim_C6 [⟨cfgDefault, 0, [⟨⟨[1], some Grad.sparse⟩, none⟩]⟩] 0 0
    ⟨cfgDefault, 0, [⟨⟨[1], some Grad.sparse⟩, none⟩]⟩
    ⟨⟨[1], some Grad.sparse⟩, none⟩ rfl rfl rfl

lemma collectEntry_spec (s : ℕ) (x : Entry) :
    (collectEntry s x).param = x.param ∧
    (x.param.grad = none → collectEntry s x = x) ∧
    (∀ G, x.param.grad = some (Grad.dense G) →
      collectEntry s x =
        ⟨x.param, some ⟨s, (x.state.getD (initState x.param)).exp_avg,
          (x.state.getD (initState x.param)).exp_avg_sq⟩⟩) := by
  refine ⟨?_, fun h => by simp [collectEntry, h], fun G h => by simp [collectEntry, h]⟩
  cases hg : x.param.grad with
  | none => simp [collectEntry, hg]
  | some gr => cases gr <;> simp [collectEntry, hg]

lemma collect_first_sparse (s : ℕ) (es : List Entry) (k : ℕ) (e : Entry)
    (hk : es[k]? = some e) (hks : e.param.grad = some Grad.sparse)
    (hfirst : ∀ i x, i < k → es[i]? = some x → NotSparse x) :
    (collect s es).2 = Except.error StepError.sparseGrad ∧
    (∀ i x, i < k → es[i]? = some x →
      (collect s es).1[i]? = some (collectEntry s x)) ∧
    (∀ i, k ≤ i → (collect s es).1[i]? = es[i]?) := by
  induction es generalizing k with
  | nil => simp at hk
  | cons a as ih =>
    cases k with
    | zero =>
      simp at hk
      obtain rfl := hk
      refine ⟨by simp [collect, hks], fun i x hi => by omega, fun i _ => ?_⟩
      simp [collect, hks]
    | succ k =>
      have ha : NotSparse a := hfirst 0 a (by omega) (by simp)
      simp at hk
      have hfirst' : ∀ i x, i < k → as[i]? = some x → NotSparse x :=
        fun i x hi hx => hfirst (i + 1) x (by omega) (by simpa)
      obtain ⟨ih1, ih2, ih3⟩ := ih k hk hfirst'
      cases hg : a.param.grad with
      | none =>
        refine ⟨by simp [collect, hg, ih1], fun i x hi hx => ?_, fun i hki => ?_⟩
        · cases i with
          | zero =>
            simp at hx
            obtain rfl := hx
            simp [collect, hg, collectEntry]
          | succ i =>
            simp at hx
            simp [collect, hg]
            exact ih2 i x (by omega) hx
        · cases i with
          | zero => omega
          | succ i =>
            simp [collect, hg]
            exact ih3 i (by omega)
      | some gr =>
        cases gr with
        | sparse => exact absurd hg ha
        | dense G =>
          refine ⟨by simp [collect, hg, ih1], fun i x hi hx => ?_, fun i hki => ?_⟩
          · cases i with
            | zero =>
              simp at hx
              obtain rfl := hx
              simp [collect, hg]
            | succ i =>
              simp at hx
              simp [collect, hg]
              exact ih2 i x (by omega) hx
          · cases i with
            | zero => omega
            | succ i =>
              simp [collect, hg]
              exact ih3 i (by omega)

lemma stepGroup_first_sparse (g : Group) (k : ℕ) (e : Entry)
    (hk : g.entries[k]? = some e) (hks : e.param.grad = some Grad.sparse)
    (hfirst : ∀ i x, i < k → g.entries[i]? = some x → NotSparse x) :
    ∃ g', stepGroup g = (g', Except.error StepError.sparseGrad) ∧
      g'.cfg = g.cfg ∧ g'.step = g.step + 1 ∧
      (∀ i x, i < k → g.entries[i]? = some x →
        g'.entries[i]? = some (collectEntry (g.step + 1) x)) ∧
      (∀ i, k ≤ i → g'.entries[i]? = g.entries[i]?) := by
  obtain ⟨h1, h2, h3⟩ :=
    collect_first_sparse (g.step + 1) g.entries k e hk hks hfirst
  refine ⟨⟨g.cfg, g.step + 1, (collect (g.step + 1) g.entries).1⟩, ?_,
    rfl, rfl, h2, h3⟩
  simp only [stepGroup, stepGroupAtTemp, h1]

/-- Claim C8: a sparse gradient aborts the call during the collection
phase of its group - before the update phase - so in that group no
parameter value and no moment buffer changes: the group step advances,
entries before the first sparse parameter only get their state step
recorded (with zero moments lazily created), and entries from the sparse
one on are untouched. -/
theorem claim_C8 (gs : List Group) (j : ℕ) (g : Group) (k : ℕ) (e : Entry)
    (hbefore : ∀ j' g', j' < j → gs[j']? = some g' →
      ∀ x ∈ g'.entries, NotSparse x)
    (hg : gs[j]? = some g)
    (hk : g.entries[k]? = some e) (hks : e.param.grad = some Grad.sparse)
    (hfirst : ∀ i x, i < k → g.entries[i]? = some x → NotSparse x) :
    (step gs).2 = Except.error StepError.sparseGrad ∧
    (∀ (s : ℕ) (x : Entry),
      (collectEntry s x).param = x.param ∧
      (x.param.grad = none → collectEntry s x = x) ∧
      (∀ G, x.param.grad = some (Grad.dense G) →
        collectEntry s x =
          ⟨x.param, some ⟨s, (x.state.getD (initState x.param)).exp_avg,
            (x.state.getD (initState x.param)).exp_avg_sq⟩⟩)) ∧
    ∃ g', (step gs).1[j]? = some g' ∧ g'.cfg = g.cfg ∧ g'.step = g.step + 1 ∧
      (∀ i x, i < k → g.entries[i]? = some x →
        g'.entries[i]? = some (collectEntry (g.step + 1) x)) ∧
      (∀ i, k ≤ i → g'.entries[i]? = g.entries[i]?) := by
  induction gs generalizing j with
  | nil => simp at hg
  | cons a as ih =>
    cases j with
    | zero =>
      simp at hg
      obtain rfl := hg
      obtain ⟨g', hsg, hc, hstep, hlt, hge⟩ :=
        stepGroup_first_sparse _ k e hk hks hfirst
      refine ⟨by simp [step, hsg], fun s x => collectEntry_spec s x,
        g', by simp [step, hsg], hc, hstep, hlt, hge⟩
    | succ j =>
      simp at hg
      have hns_a : ∀ x ∈ a.entries, NotSparse x :=
        hbefore 0 a (by omega) (by simp)
      have hbefore' : ∀ j' g', j' < j → as[j']? = some g' →
          ∀ x ∈ g'.entries, NotSparse x :=
        fun j' g' hj' hg' => hbefore (j' + 1) g' (by omega) (by simpa)
      obtain ⟨ih1, _, g', ih2, ih3, ih4, ih5, ih6⟩ := ih j hbefore' hg
      have hsg := stepGroup_no_sparse a hns_a
      refine ⟨by simp [step, hsg, ih1], fun s x => collectEntry_spec s x,
        g', by simp [step, hsg, ih2], ih3, ih4, ih5, ih6⟩

/-- Witness for C8: a group whose second parameter has a sparse gradient
and whose first has a dense one. -/
theorem claim_C8_witness :
    (step [⟨cfgDefault, 0,
        [⟨⟨[1], some (Grad.dense [1])⟩, none⟩,
         ⟨⟨[2], some Grad.sparse⟩, none⟩]⟩]).2 =
      Except.error StepError.sparseGrad ∧
    (∀ (s : ℕ) (x : Entry),
      (collectEntry s x).param = x.param ∧
      (x.param.grad = none → collectEntry s x = x) ∧
      (∀ G, x.param.grad = some (Grad.dense G) →
        collectEntry s x =
          ⟨x.param, some ⟨s, (x.state.getD (initState x.param)).exp_avg,
            (x.state.getD (initState x.param)).exp_avg_sq⟩⟩)) ∧
    ∃ g', (step [⟨cfgDefault, 0,
        [⟨⟨[1], some (Grad.dense [1])⟩, none⟩,
         ⟨⟨[2], some Grad.sparse⟩, none⟩]⟩]).1[0]? = some g' ∧
      g'.cfg = cfgDefault ∧ g'.step = 0 + 1 ∧
      (∀ i x, i < 1 →
        [⟨⟨[1], some (Grad.dense [1])⟩, none⟩,
         ⟨⟨[2], some Grad.sparse⟩, none⟩][i]? = some x →
        g'.entries[i]? = some (collectEntry (0 + 1) x)) ∧
      (∀ i, 1 ≤ i →
        g'.entries[i]? =
          [⟨⟨[1], some (Grad.dense [1])⟩, none⟩,
           ⟨⟨[2], some Grad.sparse⟩, none⟩][i]?) :=
  claim_C8 [⟨cfgDefault, 0,
      [⟨⟨[1], some (Grad.dense [1])⟩, none⟩,
       ⟨⟨[2], some Grad.sparse⟩, none⟩]⟩] 0
    ⟨cfgDefault, 0,
      [⟨⟨[1], some (Grad.dense [1])⟩, none⟩,
       ⟨⟨[2], some Grad.sparse⟩, none⟩]⟩ 1
    ⟨⟨[2], some Grad.sparse⟩, none⟩
    (fun j' g' hj' => by omega) rfl rfl rfl
    (fun i x hi hx => by
      interval_cases i
      simp at hx
      obtain rfl := hx
      simp [NotSparse])

/-- The gradient actually used by the update: the weight-decay-adjusted
copy `grad + weight_decay * paramValue` when `weight_decay != 0` (source
lines 119-120), else the gradient itself. -/
noncomputable def adjustedGrad (c : Config) (v G : Tensor) : Tensor :=
  if c.weight_decay ≠ 0
  then List.zipWith (fun gi pi => gi + c.weight_decay * pi) G v
  else G

/-- The first-moment recurrence (source line 123, spec step c):
`beta1_t * firstMoment + (1 - beta1_t) * grad`, elementwise. -/
noncomputable def firstMomentUpd (b1t : ℝ) (m grad : Tensor) : Tensor :=
  List.zipWith (fun mi gi => b1t * mi + (1 - b1t) * gi) m grad

/-- The second-moment recurrence (source line 124, spec step d):
`beta2 * secondMoment + (1 - beta2) * grad^2`, elementwise. -/
noncomputable def secondMomentUpd (beta2 : ℝ) (m grad : Tensor) : Tensor :=
  List.zipWith (fun qi gi => beta2 * qi + (1 - beta2) * gi * gi) m grad

/-- The denominator in the form the claim states it:
`sqrt(secondMoment / bc2) + eps`, elementwise (the code computes the
equal `sqrt(secondMoment) / sqrt(bc2) + eps`). -/
noncomputable def denomSpec (c : Config) (n : ℕ) (m2 : Tensor) : Tensor :=
  m2.map (fun q => Real.sqrt (q / (1 - c.beta2 ^ n)) + c.eps)

lemma mem_zipWith {α β γ : Type} {f : α → β → γ} {l1 : List α}
    {l2 : List β} {z : γ} (hz : z ∈ List.zipWith f l1 l2) :
    ∃ a b, a ∈ l1 ∧ b ∈ l2 ∧ z = f a b := by
  induction l1 generalizing l2 with
  | nil => simp at hz
  | cons a as ih =>
    cases l2 with
    | nil => simp at hz
    | cons b bs =>
      simp only [List.zipWith_cons_cons, List.mem_cons] at hz
      cases hz with
      | inl h => exact ⟨a, b, by simp, by simp, h⟩
      | inr h =>
        obtain ⟨x, y, hx, hy, hxy⟩ := ih h
        exact ⟨x, y, by simp [hx], by simp [hy], hxy⟩

lemma zipWith_const_zero (f : ℝ → ℝ → ℝ) (l1 l2 : List ℝ)
    (h : l1.length = l2.length) :
    List.zipWith f (l1.map (fun _ => (0 : ℝ))) l2 = l2.map (fun b => f 0 b) := by
  induction l1 generalizing l2 with
  | nil =>
    cases l2 with
    | nil => rfl
    | cons b bs => simp at h
  | cons a as ih =>
    cases l2 with
    | nil => simp at h
    | cons b bs =>
      simp only [List.map_cons, List.zipWith_cons_cons]
      rw [ih bs (by simpa using h)]

lemma stepEntry_dense (c : Config) (n : ℕ) (e : Entry) (G : Tensor)
    (hG : e.param.grad = some (Grad.dense G)) :
    stepEntry c n e =
      ⟨⟨List.zipWith
          (fun pv q =>
            pv + -(c.lr * temperatureAt c n /
              (1 - beta1T c (temperatureAt c n) ^ n)) * q)
          e.param.value
          (List.zipWith (fun m d => m / d)
            (firstMomentUpd (beta1T c (temperatureAt c n))
              (e.state.getD (initState e.param)).exp_avg
              (adjustedGrad c e.param.value G))
            ((secondMomentUpd c.beta2
                (e.state.getD (initState e.param)).exp_avg_sq
                (adjustedGrad c e.param.value G)).map
              (fun q => Real.sqrt q / Real.sqrt (1 - c.beta2 ^ n) + c.eps))),
        some (Grad.dense G)⟩,
       some ⟨n,
        firstMomentUpd (beta1T c (temperatureAt c n))
          (e.state.getD (initState e.param)).exp_avg
          (adjustedGrad c e.param.value G),
        secondMomentUpd c.beta2
          (e.state.getD (initState e.param)).exp_avg_sq
          (adjustedGrad c e.param.value G)⟩⟩ := by
  simp only [stepEntry, collectEntry, hG, updateEntry, updateParam,
    firstMomentUpd, secondMomentUpd, adjustedGrad]

/-- Claim C1: on a successful update call, each parameter with a dense
gradient is transformed exactly by the stated recurrence: weight-decay
adjustment of the gradient copy, the two moment recurrences, and the
parameter update `paramValue - (lr_t / bc1) * firstMoment /
(sqrt(secondMoment / bc2) + eps)` with `bc1 = 1 - beta1_t^step`,
`bc2 = 1 - beta2^step` at the just-incremented step. -/
theorem claim_C1 (gs : List Group)
    (hns : ∀ g ∈ gs, ∀ e ∈ g.entries, NotSparse e)
    (j i : ℕ) (g : Group) (e : Entry) (G : Tensor)
    (hg : gs[j]? = some g) (he : g.entries[i]? = some e)
    (hG : e.param.grad = some (Grad.dense G))
    (hv : ValidConfig g.cfg)
    (hnn : ∀ q ∈ (e.state.getD (initState e.param)).exp_avg_sq, (0 : ℝ) ≤ q) :
    ∃ g', (step gs).1[j]? = some g' ∧ g'.step = g.step + 1 ∧
      g'.entries[i]? = some
        ⟨⟨List.zipWith
            (fun pv q =>
              pv - g.cfg.lr * temperatureAt g.cfg (g.step + 1) /
                (1 - beta1T g.cfg (temperatureAt g.cfg (g.step + 1)) ^
                  (g.step + 1)) * q)
            e.param.value
            (List.zipWith (fun m d => m / d)
              (firstMomentUpd (beta1T g.cfg (temperatureAt g.cfg (g.step + 1)))
                (e.state.getD (initState e.param)).exp_avg
                (adjustedGrad g.cfg e.param.value G))
              (denomSpec g.cfg (g.step + 1)
                (secondMomentUpd g.cfg.beta2
                  (e.state.getD (initState e.param)).exp_avg_sq
                  (adjustedGrad g.cfg e.param.value G)))),
          some (Grad.dense G)⟩,
         some ⟨g.step + 1,
          firstMomentUpd (beta1T g.cfg (temperatureAt g.cfg (g.step + 1)))
            (e.state.getD (initState e.param)).exp_avg
            (adjustedGrad g.cfg e.param.value G),
          secondMomentUpd g.cfg.beta2
            (e.state.getD (initState e.param)).exp_avg_sq
            (adjustedGrad g.cfg e.param.value G)⟩⟩ := by
  rw [step_no_sparse gs hns]
  refine ⟨stepGroupOk g, by simp [hg], (stepGroupOk_parts g).2.1, ?_⟩
  rw [(stepGroupOk_parts g).2.2]
  simp only [List.getElem?_map, he, Option.map_some, Option.map_some']
  rw [stepEntry_dense g.cfg (g.step + 1) e G hG]
  have hb2 : 0 ≤ g.cfg.beta2 ∧ g.cfg.beta2 < 1 := hv ConfigField.beta2
  have hM2nn : ∀ q ∈ secondMomentUpd g.cfg.beta2
      (e.state.getD (initState e.param)).exp_avg_sq
      (adjustedGrad g.cfg e.param.value G), (0 : ℝ) ≤ q := by
    intro q hq
    unfold secondMomentUpd at hq
    obtain ⟨a, b, ha, hb, rfl⟩ := mem_zipWith hq
    have h0a := hnn a ha
    nlinarith [mul_self_nonneg b]
  have hden : (secondMomentUpd g.cfg.beta2
        (e.state.getD (initState e.param)).exp_avg_sq
        (adjustedGrad g.cfg e.param.value G)).map
      (fun q => Real.sqrt q / Real.sqrt (1 - g.cfg.beta2 ^ (g.step + 1)) +
        g.cfg.eps) =
      denomSpec g.cfg (g.step + 1)
        (secondMomentUpd g.cfg.beta2
          (e.state.getD (initState e.param)).exp_avg_sq
          (adjustedGrad g.cfg e.param.value G)) := by
    unfold denomSpec
    refine List.map_congr_left fun q hq => ?_
    rw [Real.sqrt_div (hM2nn q hq)]
  have hfun : (fun pv q =>
      pv + -(g.cfg.lr * temperatureAt g.cfg (g.step + 1) /
        (1 - beta1T g.cfg (temperatureAt g.cfg (g.step + 1)) ^ (g.step + 1))) * q) =
      fun pv q : ℝ =>
        pv - g.cfg.lr * temperatureAt g.cfg (g.step + 1) /
          (1 - beta1T g.cfg (temperatureAt g.cfg (g.step + 1)) ^ (g.step + 1)) * q := by
    funext pv q
    ring
  rw [hden, hfun]

/-- Witness for C1: one group, one scalar parameter with a dense
gradient, fresh state, under the default configuration. -/
theorem claim_C1_witness :
    ∃ g', (step [⟨cfgDefault, 0, [⟨⟨[1], some (Grad.dense [1])⟩, none⟩]⟩]).1[0]? =
        some g' ∧ g'.step = 0 + 1 ∧
      g'.entries[0]? = some
        ⟨⟨List.zipWith
            (fun pv q =>
              pv - cfgDefault.lr * temperatureAt cfgDefault (0 + 1) /
                (1 - beta1T cfgDefault (temperatureAt cfgDefault (0 + 1)) ^
                  (0 + 1)) * q)
            [1]
            (List.zipWith (fun m d => m / d)
              (firstMomentUpd (beta1T cfgDefault (temperatureAt cfgDefault (0 + 1)))
                ((none : Option ParamState).getD
                  (initState ⟨[1], some (Grad.dense [1])⟩)).exp_avg
                (adjustedGrad cfgDefault [1] [1]))
              (denomSpec cfgDefault (0 + 1)
                (secondMomentUpd cfgDefault.beta2
                  ((none : Option ParamState).getD
                    (initState ⟨[1], some (Grad.dense [1])⟩)).exp_avg_sq
                  (adjustedGrad cfgDefault [1] [1])))),
          some (Grad.dense [1])⟩,
         some ⟨0 + 1,
          firstMomentUpd (beta1T cfgDefault (temperatureAt cfgDefault (0 + 1)))
            ((none : Option ParamState).getD
              (initState ⟨[1], some (Grad.dense [1])⟩)).exp_avg
            (adjustedGrad cfgDefault [1] [1]),
          secondMomentUpd cfgDefault.beta2
            ((none : Option ParamState).getD
              (initState ⟨[1], some (Grad.dense [1])⟩)).exp_avg_sq
            (adjustedGrad cfgDefault [1] [1])⟩⟩ :=
  claim_C1 [⟨cfgDefault, 0, [⟨⟨[1], some (Grad.dense [1])⟩, none⟩]⟩]
    (by
      intro g hg e he
      simp at hg
      subst hg
      simp at he
      subst he
      simp [NotSparse])
    0 0 ⟨cfgDefault, 0, [⟨⟨[1], some (Grad.dense [1])⟩, none⟩]⟩
    ⟨⟨[1], some (Grad.dense [1])⟩, none⟩ [1] rfl rfl rfl cfgDefault_valid
    (by
      intro q hq
      simp [initState] at hq
      simp [hq])

lemma adjustedGrad_len (c : Config) (v G : Tensor)
    (h : G.length = v.length) :
    v.length = (adjustedGrad c v G).length := by
  unfold adjustedGrad
  split_ifs <;> simp [h]

/-- Claim C9: a parameter first seen at group step `n` gets a lazily
created state whose moments come from the recurrence applied to zero
moments, whose recorded step is `n` (not 1), and whose first update uses
bias-correction exponents `n`; and after a successful call every updated
parameter's state step equals its group's step counter. -/
theorem claim_C9 (gs : List Group)
    (hns : ∀ g ∈ gs, ∀ e ∈ g.entries, NotSparse e)
    (j i : ℕ) (g : Group) (e : Entry) (G : Tensor)
    (hg : gs[j]? = some g) (he : g.entries[i]? = some e)
    (hG : e.param.grad = some (Grad.dense G))
    (hfresh : e.state = none)
    (hlen : G.length = e.param.value.length) :
    ∃ g', (step gs).1[j]? = some g' ∧ g'.step = g.step + 1 ∧
      (∃ e', g'.entries[i]? = some e' ∧
        e'.state = some ⟨g.step + 1,
          (adjustedGrad g.cfg e.param.value G).map
            (fun gi => (1 - beta1T g.cfg (temperatureAt g.cfg (g.step + 1))) * gi),
          (adjustedGrad g.cfg e.param.value G).map
            (fun gi => (1 - g.cfg.beta2) * gi * gi)⟩ ∧
        e'.param.value =
          List.zipWith
            (fun pv q => pv + -(g.cfg.lr * temperatureAt g.cfg (g.step + 1) /
              (1 - beta1T g.cfg (temperatureAt g.cfg (g.step + 1)) ^
                (g.step + 1))) * q)
            e.param.value
            (List.zipWith (fun m d => m / d)
              ((adjustedGrad g.cfg e.param.value G).map
                (fun gi =>
                  (1 - beta1T g.cfg (temperatureAt g.cfg (g.step + 1))) * gi))
              (((adjustedGrad g.cfg e.param.value G).map
                  (fun gi => (1 - g.cfg.beta2) * gi * gi)).map
                (fun q => Real.sqrt q /
                  Real.sqrt (1 - g.cfg.beta2 ^ (g.step + 1)) + g.cfg.eps)))) ∧
      (∀ (i' : ℕ) (e' : Entry) (G' : Tensor), g.entries[i']? = some e' →
        e'.param.grad = some (Grad.dense G') →
        ∃ (e'' : Entry) (st : ParamState),
          g'.entries[i']? = some e'' ∧ e''.state = some st ∧
          st.step = g'.step) := by
  rw [step_no_sparse gs hns]
  have hparts := stepGroupOk_parts g
  have hGlen := adjustedGrad_len g.cfg e.param.value G hlen
  have hst : e.state.getD (initState e.param) = initState e.param := by
    rw [hfresh]
    rfl
  have hm1 : firstMomentUpd (beta1T g.cfg (temperatureAt g.cfg (g.step + 1)))
      (initState e.param).exp_avg (adjustedGrad g.cfg e.param.value G) =
      (adjustedGrad g.cfg e.param.value G).map
        (fun gi =>
          (1 - beta1T g.cfg (temperatureAt g.cfg (g.step + 1))) * gi) := by
    simp only [firstMomentUpd, initState]
    rw [zipWith_const_zero _ _ _ hGlen]
    have hf : (fun b => beta1T g.cfg (temperatureAt g.cfg (g.step + 1)) * 0 +
        (1 - beta1T g.cfg (temperatureAt g.cfg (g.step + 1))) * b) =
        fun b : ℝ =>
          (1 - beta1T g.cfg (temperatureAt g.cfg (g.step + 1))) * b := by
      funext b
      ring
    rw [hf]
  have hm2 : secondMomentUpd g.cfg.beta2
      (initState e.param).exp_avg_sq (adjustedGrad g.cfg e.param.value G) =
      (adjustedGrad g.cfg e.param.value G).map
        (fun gi => (1 - g.cfg.beta2) * gi * gi) := by
    simp only [secondMomentUpd, initState]
    rw [zipWith_const_zero _ _ _ hGlen]
    have hf : (fun b => g.cfg.beta2 * 0 + (1 - g.cfg.beta2) * b * b) =
        fun b : ℝ => (1 - g.cfg.beta2) * b * b := by
      funext b
      ring
    rw [hf]
  have hentry := stepEntry_dense g.cfg (g.step + 1) e G hG
  rw [hst, hm1, hm2] at hentry
  refine ⟨stepGroupOk g, by simp [hg], hparts.2.1, ?_, ?_⟩
  · rw [hparts.2.2]
    simp only [List.getElem?_map, he, Option.map_some, Option.map_some']
    refine ⟨stepEntry g.cfg (g.step + 1) e, rfl, ?_, ?_⟩ <;> rw [hentry]
  · intro i' e' G' he' hG'
    rw [hparts.2.2]
    simp only [List.getElem?_map, he', Option.map_some, Option.map_some']
    rw [stepEntry_dense g.cfg (g.step + 1) e' G' hG']
    exact ⟨_, _, rfl, rfl, hparts.2.1.symm⟩

/-- Witness for C9 at a one-parameter group with fresh state. -/
theorem claim_C9_witness :
    ∃ g', (step [⟨cfgDefault, 0, [⟨⟨[1], some (Grad.dense [1])⟩, none⟩]⟩]).1[0]? =
        some g' ∧ g'.step = 0 + 1 ∧
      (∃ e', g'.entries[0]? = some e' ∧
        e'.state = some ⟨0 + 1,
          (adjustedGrad cfgDefault [1] [1]).map
            (fun gi => (1 - beta1T cfgDefault (temperatureAt cfgDefault (0 + 1))) * gi),
          (adjustedGrad cfgDefault [1] [1]).map
            (fun gi => (1 - cfgDefault.beta2) * gi * gi)⟩ ∧
        e'.param.value =
          List.zipWith
            (fun pv q => pv + -(cfgDefault.lr * temperatureAt cfgDefault (0 + 1) /
              (1 - beta1T cfgDefault (temperatureAt cfgDefault (0 + 1)) ^
                (0 + 1))) * q)
            [1]
            (List.zipWith (fun m d => m / d)
              ((adjustedGrad cfgDefault [1] [1]).map
                (fun gi =>
                  (1 - beta1T cfgDefault (temperatureAt cfgDefault (0 + 1))) * gi))
              (((adjustedGrad cfgDefault [1] [1]).map
                  (fun gi => (1 - cfgDefault.beta2) * gi * gi)).map
                (fun q => Real.sqrt q /
                  Real.sqrt (1 - cfgDefault.beta2 ^ (0 + 1)) + cfgDefault.eps)))) ∧
      (∀ (i' : ℕ) (e' : Entry) (G' : Tensor),
        [(⟨⟨[1], some (Grad.dense [1])⟩, none⟩ : Entry)][i']? = some e' →
        e'.param.grad = some (Grad.dense G') →
        ∃ (e'' : Entry) (st : ParamState),
          g'.entries[i']? = some e'' ∧ e''.state = some st ∧
          st.step = g'.step) :=
  claim_C9 [⟨cfgDefault, 0, [⟨⟨[1], some (Grad.dense [1])⟩, none⟩]⟩]
    (by
      intro g hg e he
      simp at hg
      subst hg
      simp at he
      subst he
      simp [NotSparse])
    0 0 ⟨cfgDefault, 0, [⟨⟨[1], some (Grad.dense [1])⟩, none⟩]⟩
    ⟨⟨[1], some (Grad.dense [1])⟩, none⟩ [1] rfl rfl rfl rfl rfl

/-- Claim C4 (amended): the two divisors of the update - the
bias-correction factor `bc1 = 1 - beta1_t^step` and `sqrt(bc2) =
sqrt(1 - beta2^step)` - are nonzero at every reachable step, provided the
valid configuration additionally has `eta_min > 0` and
`(1 - beta1) * temperature_init < 2`. -/
theorem claim_C4 (c : Config) (hv : ValidConfig c) (hpos : 0 < c.eta_min)
    (hb : (1 - c.beta1) * c.temperature_init < 2) (s : ℕ) (hs : 1 ≤ s) :
    1 - beta1T c (temperatureAt c s) ^ s ≠ 0 ∧
    Real.sqrt (1 - c.beta2 ^ s) ≠ 0 := by
  have hle : c.eta_min ≤ c.temperature_init := (hv ConfigField.eta_min).2
  obtain ⟨ht1, ht2⟩ := temperatureAt_mem c hle s
  have hb1 : 0 ≤ c.beta1 ∧ c.beta1 < 1 := hv ConfigField.beta1
  have hb2 : 0 ≤ c.beta2 ∧ c.beta2 < 1 := hv ConfigField.beta2
  have htpos : 0 < temperatureAt c s := lt_of_lt_of_le hpos ht1
  have habs : |beta1T c (temperatureAt c s)| < 1 := by
    rw [abs_lt]
    unfold beta1T
    constructor <;> nlinarith
  have hpow : |beta1T c (temperatureAt c s)| ^ s < 1 :=
    pow_lt_one₀ (abs_nonneg _) habs (by omega)
  constructor
  · have h1 : beta1T c (temperatureAt c s) ^ s ≤
        |beta1T c (temperatureAt c s) ^ s| := le_abs_self _
    rw [abs_pow] at h1
    have h2 := lt_of_le_of_lt h1 hpow
    have : (0 : ℝ) < 1 - beta1T c (temperatureAt c s) ^ s := by linarith
    exact ne_of_gt this
  · have h3 := pow_lt_one₀ hb2.1 hb2.2 (by omega : s ≠ 0)
    have : (0 : ℝ) < 1 - c.beta2 ^ s := by linarith
    exact ne_of_gt (Real.sqrt_pos.mpr this)

/-- Witness for C4 (amended) at the default configuration, step 1. -/
theorem claim_C4_witness :
    ValidConfig cfgDefault ∧ 0 < cfgDefault.eta_min ∧
    (1 - cfgDefault.beta1) * cfgDefault.temperature_init < 2 ∧ (1 : ℕ) ≤ 1 ∧
    (1 - beta1T cfgDefault (temperatureAt cfgDefault 1) ^ (1 : ℕ) ≠ 0 ∧
      Real.sqrt (1 - cfgDefault.beta2 ^ (1 : ℕ)) ≠ 0) :=
  ⟨cfgDefault_valid, by norm_num [cfgDefault], by norm_num [cfgDefault],
    le_refl 1,
    claim_C4 cfgDefault cfgDefault_valid (by norm_num [cfgDefault])
      (by norm_num [cfgDefault]) 1 (le_refl 1)⟩

/-- A valid configuration with `eta_min = 0` and `T_max = 1` on which the
first update divides by zero. -/
noncomputable def cfgZeroEta : Config := ⟨1 / 10, 0, 0, 0, 0, 1, 0, 1⟩

/-- Counterexample to claim C4 as stated: `cfgZeroEta` passes every
construction bound (in particular `eta_min = 0` is allowed), the first
update call reaches group step 1, and there `temperature = 0`, so
`beta1_t = 1` and the divisor `bc1 = 1 - beta1_t^1` is exactly zero -
the Python code raises `ZeroDivisionError` at line 131. -/
theorem claim_C4_counterexample :
    ValidConfig cfgZeroEta ∧
    (stepGroup ⟨cfgZeroEta, 0, []⟩).1.step = 1 ∧
    temperatureAt cfgZeroEta 1 = 0 ∧
    1 - beta1T cfgZeroEta (temperatureAt cfgZeroEta 1) ^ (1 : ℕ) = 0 := by
  have ht : temperatureAt cfgZeroEta 1 = 0 := by
    simp [temperatureAt, cfgZeroEta, Real.cos_pi]
  refine ⟨?_, ?_, ht, ?_⟩
  · intro f
    cases f <;> simp only [fieldBound, cfgZeroEta] <;> norm_num
  · rfl
  · rw [ht]
    simp [beta1T, cfgZeroEta]

/-- The configuration of the spec's concrete scenario:
`lr=0.1, beta1=0.9, beta2=0.999, eps=1e-8, weightDecay=0, tMax=10,
eta_min=0.1, temperature_init=1.0`. -/
noncomputable def cfgC5 : Config :=
  ⟨1 / 10, 9 / 10, 999 / 1000, 1 / 100000000, 0, 10, 1 / 10, 1⟩

/-- The scenario's single scalar parameter `value=1.0` with gradient
`1.0`. -/
noncomputable def entC5 : Entry := ⟨⟨[1], some (Grad.dense [1])⟩, none⟩

/-- The scenario's single group before the first call. -/
noncomputable def grpC5 : Group := ⟨cfgC5, 0, [entC5]⟩

/-- The scenario's optimizer state before the first call. -/
noncomputable def gsC5 : List Group := [grpC5]

/-- Observer: the first scalar of the first parameter of the first group
(0 when absent). -/
noncomputable def firstParamValue (gs : List Group) : ℝ :=
  match gs with
  | [] => 0
  | g :: _ =>
    match g.entries with
    | [] => 0
    | e :: _ =>
      match e.param.value with
      | [] => 0
      | x :: _ => x

lemma cos_pi_div_ten_eq :
    Real.cos (Real.pi / 10) = Real.sqrt ((5 + Real.sqrt 5) / 8) := by
  have h : Real.pi / 10 = Real.pi / 5 / 2 := by ring
  rw [h, Real.cos_half (by linarith [Real.pi_pos]) (by linarith [Real.pi_pos]),
    Real.cos_pi_div_five]
  congr 1
  ring

lemma cos_pi_div_ten_bounds :
    (0.951056 : ℝ) < Real.cos (Real.pi / 10) ∧
    Real.cos (Real.pi / 10) < (0.951057 : ℝ) := by
  rw [cos_pi_div_ten_eq]
  have h5a : (2.2360679 : ℝ) < Real.sqrt 5 := by
    rw [Real.lt_sqrt (by norm_num)]
    norm_num
  have h5b : Real.sqrt 5 < (2.2360680 : ℝ) := by
    rw [Real.sqrt_lt' (by norm_num)]
    norm_num
  constructor
  · rw [Real.lt_sqrt (by norm_num)]
    nlinarith
  · rw [Real.sqrt_lt' (by norm_num)]
    nlinarith

lemma temperatureAt_cfgC5 :
    temperatureAt cfgC5 1 =
      1 / 10 + (1 - 1 / 10) * (1 + Real.cos (Real.pi / 10)) / 2 := by
  unfold temperatureAt cfgC5
  norm_num

lemma tC5_bounds :
    (0.9779752 : ℝ) < temperatureAt cfgC5 1 ∧
    temperatureAt cfgC5 1 < (0.9779757 : ℝ) := by
  rw [temperatureAt_cfgC5]
  obtain ⟨h1, h2⟩ := cos_pi_div_ten_bounds
  constructor <;> nlinarith

lemma gsC5_value :
    firstParamValue (step gsC5).1 =
      1 - temperatureAt cfgC5 1 / 10 / (1 + 1 / 100000000) := by
  have hns : ∀ g ∈ gsC5, ∀ e ∈ g.entries, NotSparse e := by
    intro g hg e he
    simp [gsC5] at hg
    subst hg
    simp [grpC5] at he
    subst he
    simp [entC5, NotSparse]
  have ht1 : (1 : ℝ) / 10 ≤ temperatureAt cfgC5 1 := by
    have h := (temperatureAt_mem cfgC5 (by norm_num [cfgC5]) 1).1
    simpa [cfgC5] using h
  have htpos : temperatureAt cfgC5 1 ≠ 0 := by
    have : (0 : ℝ) < temperatureAt cfgC5 1 := by linarith
    exact ne_of_gt this
  have h1 : (step gsC5).1 = [stepGroupOk grpC5] := by
    rw [step_no_sparse gsC5 hns]
    rfl
  have h2 : stepGroupOk grpC5 = ⟨cfgC5, 1, [stepEntry cfgC5 1 entC5]⟩ := by
    simp [stepGroupOk, updatePhase, stepEntry, grpC5]
  have h3 := stepEntry_dense cfgC5 1 entC5 [1] rfl
  have hadj : adjustedGrad cfgC5 [1] [1] = [1] := by
    simp [adjustedGrad, cfgC5]
  rw [h1, h2, h3]
  simp only [entC5, initState, Option.getD, List.map_cons, List.map_nil] at hadj ⊢
  rw [hadj]
  simp only [firstMomentUpd, secondMomentUpd, List.zipWith_cons_cons,
    List.zipWith_nil_right, List.zipWith_nil_left, List.map_cons, List.map_nil,
    firstParamValue]
  have hb1 : beta1T cfgC5 (temperatureAt cfgC5 1) =
      9 / 10 + (1 - 9 / 10) * (1 - temperatureAt cfgC5 1) := by
    simp [beta1T, cfgC5]
  have hm2 : cfgC5.beta2 * 0 + (1 - cfgC5.beta2) * 1 * 1 = 1 / 1000 := by
    norm_num [cfgC5]
  have hbc2 : 1 - cfgC5.beta2 ^ (1 : ℕ) = 1 / 1000 := by
    norm_num [cfgC5]
  rw [hm2, hbc2]
  have hsq : Real.sqrt (1 / 1000) / Real.sqrt (1 / 1000) = 1 := by
    have : Real.sqrt (1 / 1000) ≠ 0 := by positivity
    exact div_self this
  rw [hsq, hb1]
  have hbc1 : 1 - (9 / 10 + (1 - 9 / 10) * (1 - temperatureAt cfgC5 1)) ^ (1 : ℕ) =
      temperatureAt cfgC5 1 / 10 := by
    ring
  rw [hbc1]
  have heps : cfgC5.eps = 1 / 100000000 := by norm_num [cfgC5]
  have hlr : cfgC5.lr = 1 / 10 := by norm_num [cfgC5]
  rw [heps, hlr]
  field_simp [htpos]
  ring

/-- Counterexample to claim C5 as stated: in the spec's concrete
scenario the parameter after the first call is about 0.9022025 - the
temperature of the first call is cosine-annealed at the just-incremented
step 1 (about 0.97798, not about 1.0) - so it differs from the claimed
0.9000000033 by far more than the stated 1e-6 tolerance. -/
theorem claim_C5_counterexample :
    1 / 10 ^ 6 <
      |firstParamValue (step gsC5).1 - 9000000033 / 10 ^ 10| := by
  rw [gsC5_value]
  obtain ⟨hta, htb⟩ := tC5_bounds
  have hq : temperatureAt cfgC5 1 / 10 / (1 + 1 / 100000000) <
      (0.0977976 : ℝ) := by
    rw [div_div, div_lt_iff₀ (by norm_num)]
    have hc : (0.9779757 : ℝ) < 0.0977976 * (10 * (1 + 1 / 100000000)) := by
      norm_num
    linarith
  have h : (1 / 10 ^ 6 : ℝ) <
      1 - temperatureAt cfgC5 1 / 10 / (1 + 1 / 100000000) -
        9000000033 / 10 ^ 10 := by
    linarith
  exact lt_of_lt_of_le h (le_abs_self _)

/-- Claim C5 (amended): in the spec's concrete scenario the first call
uses temperature `temperatureAt cfgC5 1` (cosine-annealed at step 1,
about 0.97798), the adjusted rate `lr_t / bc1` equals exactly 1, and the
parameter becomes `1 - temperature/10 / (1 + 1e-8)`, about 0.9022025
within 1e-6; further calls follow deterministically from the same
recurrence. -/
theorem claim_C5 :
    firstParamValue (step gsC5).1 =
      1 - temperatureAt cfgC5 1 / 10 / (1 + 1 / 100000000) ∧
    cfgC5.lr * temperatureAt cfgC5 1 /
      (1 - beta1T cfgC5 (temperatureAt cfgC5 1) ^ (1 : ℕ)) = 1 ∧
    |firstParamValue (step gsC5).1 - 9022025 / 10 ^ 7| < 1 / 10 ^ 6 := by
  have hval := gsC5_value
  obtain ⟨hta, htb⟩ := tC5_bounds
  have htne : temperatureAt cfgC5 1 ≠ 0 := by
    have : (0 : ℝ) < temperatureAt cfgC5 1 := by linarith
    exact ne_of_gt this
  refine ⟨hval, ?_, ?_⟩
  · have hbc1 : 1 - beta1T cfgC5 (temperatureAt cfgC5 1) ^ (1 : ℕ) =
        temperatureAt cfgC5 1 / 10 := by
      simp [beta1T, cfgC5]
      ring
    have hlr : cfgC5.lr = 1 / 10 := by norm_num [cfgC5]
    rw [hbc1, hlr]
    field_simp
  · rw [hval]
    have hqa : (0.0977975 : ℝ) <
        temperatureAt cfgC5 1 / 10 / (1 + 1 / 100000000) := by
      rw [div_div, lt_div_iff₀ (by norm_num)]
      have hc : (0.0977975 : ℝ) * (10 * (1 + 1 / 100000000)) < 0.9779752 := by
        norm_num
      linarith
    have hqb : temperatureAt cfgC5 1 / 10 / (1 + 1 / 100000000) <
        (0.0977976 : ℝ) := by
      rw [div_div, div_lt_iff₀ (by norm_num)]
      have hc : (0.9779757 : ℝ) < 0.0977976 * (10 * (1 + 1 / 100000000)) := by
        norm_num
      linarith
    rw [abs_lt]
    constructor <;> linarith

end AdamT
